import Mathlib

/-!
A shallow embedding of cantk-rt `V8Wrapper.cpp`, and its verified properties.

The host embeds a script engine, loads a startup script, and drives the script
with a per-frame `tick` and with input events.  The script engine (V8), the
canvas, the markup extractor and the file system are collaborators outside
`V8Wrapper.cpp`; they appear here as parameters (`Engine`, `FileSystem`,
`extractScriptInHTML`) or as entries of an observable call trace (`Event`).

Conventions of the embedding

* C `int` is a 32-bit two's-complement integer, `long` is 64 bits wide
  (`toInt32` is the `long`→`int` conversion of `int size = ftell(file)`).
* A `Handle<T>` is an `Option`: `none` is the empty handle.
* A pointer to a `NanCallback` is an `Option FunRef`; a call through the null
  pointer is `Run.crash`.
* The one loop of the file that need not terminate (`ReadFile`) takes fuel;
  `none` means the fuel ran out before the loop ended.
* A `v8::String` is its sequence of UTF-16 code units; `String::NewFromUtf8`
  decodes the bytes it is given (`utf8Decode`) and yields the empty handle
  above `String::kMaxLength`, a constant of the engine.
* For the claim about the built-in fallback script the engine is modelled on
  the fragment of the script language that script is written in
  (`scriptEngine`); everywhere else it is an arbitrary `Engine`.
-/

namespace V8Wrapper

/-! ## Values -/

/-- Reference to a function object living in the script engine. -/
structure FunRef where
  id : Nat
deriving DecidableEq, Repr

/-- One C `char` of a file or of a buffer. -/
abbrev Byte := UInt8

/-- One UTF-16 code unit of a string of the engine. -/
abbrev CodeUnit := UInt16

/-- A `v8::String`: its UTF-16 code units; `Length()` is their number. -/
abbrev V8String := List CodeUnit

/-- A `String::Utf8Value`: the C string `*value`, `none` when it is the null
pointer. -/
abbrev Utf8Value := Option String

/-- A `Handle<T>`; `none` is the empty handle (`IsEmpty()`). -/
abbrev Handle (α : Type) := Option α

/-- Conversion of a `long` to a 32-bit `int` (`int size = ftell(file)`). -/
def toInt32 (n : Int) : Int :=
  (n + 2147483648) % 4294967296 - 2147483648

/-- Bytes of an ASCII C string literal. -/
def cstr (s : String) : List Byte :=
  s.toList.map (fun c => c.toNat.toUInt8)

/-- `NanNew("...")` on an ASCII string literal of the source: the string whose
code units are the characters of the literal. -/
def NanNew (s : String) : V8String :=
  s.toList.map (fun c => c.toNat.toUInt16)

/-- Script values the host builds or inspects. -/
inductive Val where
  | undefined
  | integer (i : Int)
  | number (d : Float)
  | string (s : String)
  | array (items : List Val)
  | object (props : List (String × Val))
  | function (f : FunRef)

/-- The check `value->IsFunction()`. -/
def Val.IsFunction : Val → Bool
  | .function _ => true
  | _ => false

/-- Property assignment `obj->Set(key, value)` on an ordered property list:
an existing key is overwritten in place, a new key is appended. -/
def setProp {α : Type} : List (String × α) → String → α → List (String × α)
  | [], k, v => [(k, v)]
  | (k', v') :: rest, k, v =>
    if k' = k then (k, v) :: rest else (k', v') :: setProp rest k v

/-- Property lookup on an ordered property list; `none` when the key is absent. -/
def getProp {α : Type} : List (String × α) → String → Option α
  | [], _ => none
  | (k', v') :: rest, k => if k' = k then some v' else getProp rest k

/-- Assignment `obj->Set(NanNew(key), value)`; a non-object is left unchanged. -/
def Val.Set : Val → String → Val → Val
  | .object props, k, v => .object (setProp props k v)
  | other, _, _ => other

/-- Field of an event record; `none` when the record has no such field. -/
def Val.field : Val → String → Option Val
  | .object props, k => getProp props k
  | _, _ => none

/-! ## Observable trace -/

/-- Calls the host makes on its collaborators, in program order. -/
inductive Event where
  | logI (msg : String)
  | logE (msg : String)
  | console (text : String)
  | nativeInitBinding
  | canvasInit
  | beginPaint
  | endPaint
  | execute (source : V8String) (name : String)
  | call (f : FunRef) (args : List Val)
  | throwException (msg : String)

/-! ## File system -/

/-- An opened stream: the bytes of the file and, for the `k`-th call of
`fread` on the stream, the largest number of bytes that call delivers
(`0`: the call reads nothing, as at end-of-file or on a read error). -/
structure FileData where
  content : List Byte
  readLimit : Nat → Nat

/-- The call `fopen(name, "rb")`: the stream, or `errno` when it returns `NULL`. -/
abbrev FileSystem := String → Except Int FileData

/-- Count returned by the `k`-th `fread(&chars[i], 1, want, file)` with the
stream positioned at byte `i`. -/
def fread (f : FileData) (k i want : Nat) : Nat :=
  min want (min (f.readLimit k) (f.content.length - i))

/-- The loop `for (int i = 0; i < size;) { read = fread(...); i += read; }`.
`k` counts the calls of `fread`, `chars` holds the bytes `chars[0..i)` written
so far.  One unit of fuel is one execution of the loop body. -/
def readLoop (f : FileData) (size : Nat) : Nat → Nat → Nat → List Byte → Option (List Byte)
  | fuel, k, i, chars =>
    if i < size then
      match fuel with
      | 0 => none
      | fuel + 1 =>
        let read := fread f k i (size - i)
        readLoop f size fuel (k + 1) (i + read) (chars ++ (f.content.drop i).take read)
    else some chars

/-! ## Script engine -/

/-- Location data of a `v8::Message`, as `ReportException` reads it. -/
structure Message where
  resourceName : Utf8Value
  lineNumber : Int
  sourceLine : Utf8Value
  startColumn : Int
  endColumn : Int

/-- What a `TryCatch` holds after it caught a script exception. -/
structure TryCatch where
  exception : Utf8Value
  message : Handle Message
  stackTrace : Utf8Value

/-- Outcome of `Script::Compile` followed by `script->Run()`. -/
inductive ScriptResult where
  | compileFailed (tc : TryCatch)
  | runFailed (tc : TryCatch)
  | value (isUndefined : Bool) (str : Utf8Value)

/-- The script engine, a collaborator outside this file.  `σ` is the state of
the engine (its global scope included).
* `execute s source name`: compile and run `source` under resource name `name`;
* `globalGet s key`: `context->Global()->Get(key)`;
* `call s f args`: `NanCallback::Call`, with the exception caught if one was raised;
* `utf8Value s v`: the string coercion `String::Utf8Value(v)`;
* `writeUtf8 text`: the bytes of `String::Utf8Value` of a string;
* `kMaxLength`: the constant `String::kMaxLength`.
Calls a running script makes back into the host (`print`, `require`, drawing)
are effects of the engine and are not entered in the trace. -/
structure Engine (σ : Type) where
  execute : σ → V8String → String → σ × ScriptResult
  globalGet : σ → String → Val
  call : σ → FunRef → List Val → σ × Option TryCatch
  utf8Value : σ → Val → Utf8Value
  writeUtf8 : V8String → List Byte
  kMaxLength : Nat

/-- State of the host: the engine state, the trace of collaborator calls, and
the static members `sTickFunc` and `sDispatchEventFunc` (null until `init`
resolves them). -/
structure World (σ : Type) where
  engine : σ
  trace : List Event
  sTickFunc : Option FunRef
  sDispatchEventFunc : Option FunRef

/-- Appends events to the trace. -/
def World.emit {σ : Type} (w : World σ) (es : List Event) : World σ :=
  { w with trace := w.trace ++ es }

/-- State of the process once the engine and its context exist and the global
template carries `print` and `require`: no entry point resolved yet. -/
def World.start {σ : Type} (s0 : σ) : World σ :=
  { engine := s0, trace := [], sTickFunc := none, sDispatchEventFunc := none }

/-- Result of a host operation: it returned (`ok`, with a value) or it reached
undefined behaviour (`crash`: a call through a null pointer, a negative buffer
length); either way with the state reached at that point. -/
inductive Run (σ α : Type) where
  | ok (w : World σ) (a : α)
  | crash (w : World σ)

/-! ## Reading files -/

/-- The text `open file failed: %s %d\n`. -/
def openFailedMsg (name : String) (errno : Int) : String :=
  "open file failed: " ++ name ++ " " ++ toString errno ++ "\n"

/-- True of a UTF-8 continuation byte, `10xxxxxx`. -/
def isContinuation (b : Byte) : Bool :=
  128 ≤ b.toNat && b.toNat < 192

/-- Modelled from the spec: one step of the engine's UTF-8 decoder (V8 is a
library outside the repository; the spec has the read path "decode as UTF-8
text").  At lead byte `b0` followed by `rest`: the code units of the
well-formed sequence that starts there and the bytes after it; when no
well-formed sequence starts there, U+FFFD and the bytes after `b0`. -/
def utf8Step (b0 : Byte) (rest : List Byte) : List CodeUnit × List Byte :=
  let bad : List CodeUnit × List Byte := ([65533], rest)
  if b0.toNat < 128 then ([b0.toUInt16], rest)
  else
    match rest with
    | [] => bad
    | b1 :: rest1 =>
      if !isContinuation b1 then bad
      else if b0.toNat < 224 then
        let cp := (b0.toNat - 192) * 64 + (b1.toNat - 128)
        if 192 ≤ b0.toNat && 128 ≤ cp then ([cp.toUInt16], rest1) else bad
      else
        match rest1 with
        | [] => bad
        | b2 :: rest2 =>
          if !isContinuation b2 then bad
          else if b0.toNat < 240 then
            let cp := (b0.toNat - 224) * 4096 + (b1.toNat - 128) * 64 + (b2.toNat - 128)
            if 2048 ≤ cp && !(55296 ≤ cp && cp ≤ 57343) then ([cp.toUInt16], rest2) else bad
          else
            match rest2 with
            | [] => bad
            | b3 :: rest3 =>
              if !isContinuation b3 then bad
              else
                let cp := (b0.toNat - 240) * 262144 + (b1.toNat - 128) * 4096
                  + (b2.toNat - 128) * 64 + (b3.toNat - 128)
                if b0.toNat < 248 && 65536 ≤ cp && cp ≤ 1114111 then
                  ([(55296 + (cp - 65536) / 1024).toUInt16,
                    (56320 + (cp - 65536) % 1024).toUInt16], rest3)
                else bad

/-- The decoder's loop; every step consumes a byte, so fuel equal to the
number of bytes suffices. -/
def utf8DecodeLoop : Nat → List Byte → List CodeUnit
  | 0, _ => []
  | _ + 1, [] => []
  | fuel + 1, b0 :: rest =>
    (utf8Step b0 rest).1 ++ utf8DecodeLoop fuel (utf8Step b0 rest).2

/-- Modelled from the spec: the UTF-8 decoding of a buffer into UTF-16 code
units ("decode as UTF-8 text"); V8's decoder is outside the repository. -/
def utf8Decode (bytes : List Byte) : List CodeUnit :=
  utf8DecodeLoop bytes.length bytes

/-- Modelled from the spec: `String::NewFromUtf8(isolate, chars, kNormalString,
size)` of the engine, on the `size` bytes of the buffer: the decoded string,
or the empty handle when it is longer than `String::kMaxLength`. -/
def NewFromUtf8 {σ : Type} (E : Engine σ) (chars : List Byte) : Handle V8String :=
  if E.kMaxLength < (utf8Decode chars).length then none else some (utf8Decode chars)

/-- `ReadFile(isolate, name)`.  A failed `fopen` logs and returns the empty
string (a non-empty handle).  A negative `size` makes `new char[size + 1]` and
`chars[size] = 0` undefined, and so does a `size + 1` that overflows `int`:
`crash`.  `none`: the read loop did not end within `fuel` iterations. -/
def ReadFile {σ : Type} (E : Engine σ) (fs : FileSystem) (name : String) (w : World σ)
    (fuel : Nat) : Option (Run σ (Handle V8String)) :=
  match fs name with
  | .error errno => some (.ok (w.emit [.logI (openFailedMsg name errno)]) (some (NanNew "")))
  | .ok file =>
    let size := toInt32 file.content.length
    if size < 0 ∨ 2147483647 < size + 1 then some (.crash w)
    else
      match readLoop file size.toNat fuel 0 0 [] with
      | none => none
      | some chars => some (.ok w (NewFromUtf8 E (chars.take size.toNat)))

/-- A stream is readable when every `fread` delivers at least one byte. -/
def FileData.readable (f : FileData) : Prop :=
  ∀ k, 1 ≤ f.readLimit k

/-! ## Exception reporter, script execution, `print`, `require` -/

/-- `ToCString(value)`. -/
def ToCString (value : Utf8Value) : String :=
  match value with
  | some s => s
  | none => "<string conversion failed>"

/-- `ReportException(isolate, try_catch)`: the `LOGE` calls it makes, in order. -/
def ReportException (try_catch : TryCatch) : List Event :=
  let exception_string := ToCString try_catch.exception
  match try_catch.message with
  | none => [.logE (exception_string ++ "\n")]
  | some message =>
    let filename_string := ToCString message.resourceName
    let linenum := message.lineNumber
    let sourceline_string := ToCString message.sourceLine
    let start := message.startColumn
    let endCol := message.endColumn
    [.logE (filename_string ++ ":" ++ toString linenum ++ ": " ++ exception_string ++ "\n"),
     .logE (sourceline_string ++ "\n")]
      ++ List.replicate start.toNat (.logE " ")
      ++ List.replicate (endCol - start).toNat (.logE "^")
      ++ [.logE "\n"]
      ++ (match try_catch.stackTrace with
          | some stack_trace =>
            if stack_trace.length > 0 then [.logE (stack_trace ++ "\n")] else []
          | none => [])

/-- `ExecuteString(isolate, source, name, print_result, report_exceptions)`. -/
def ExecuteString {σ : Type} (E : Engine σ) (w : World σ) (source : V8String) (name : String)
    (print_result report_exceptions : Bool) : World σ × Bool :=
  let r := E.execute w.engine source name
  let w1 : World σ := { w with engine := r.1, trace := w.trace ++ [.execute source name] }
  match r.2 with
  | .compileFailed try_catch =>
    (if report_exceptions then w1.emit (ReportException try_catch) else w1, false)
  | .runFailed try_catch =>
    (if report_exceptions then w1.emit (ReportException try_catch) else w1, false)
  | .value isUndefined str =>
    (if print_result && !isUndefined then w1.emit [.logI (ToCString str ++ "\n")] else w1, true)

/-- Body of the loop of `Print`: the `CONSOLE_LOG` calls for the remaining
arguments, `first` being the loop's flag. -/
def PrintArgs (utf8 : Val → Utf8Value) : List Val → Bool → List Event
  | [], _ => []
  | arg :: rest, first =>
    (if first then [] else [Event.console " "])
      ++ [Event.console (ToCString (utf8 arg))]
      ++ PrintArgs utf8 rest false

/-- `Print(args)`, the script-facing `print`. -/
def Print {σ : Type} (E : Engine σ) (w : World σ) (args : List Val) : World σ :=
  (w.emit (PrintArgs (E.utf8Value w.engine) args true)).emit [.console "\n"]

/-- Text written to the console sink by the events of a trace. -/
def consoleText : List Event → String
  | [] => ""
  | .console text :: rest => text ++ consoleText rest
  | _ :: rest => consoleText rest

/-- The test `strcasecmp(fileName + len - k, ext) == 0`, `k` the length of
`ext`; a name shorter than `ext` does not match. -/
def endsWithNoCase (fileName ext : String) : Bool :=
  decide (ext.length ≤ fileName.length) &&
    ((fileName.toList.drop (fileName.length - ext.length)).map Char.toLower
      == ext.toList.map Char.toLower)

/-- The C string a `char*` into the bytes denotes: the bytes before the first NUL. -/
def cString (bytes : List Byte) : List Byte :=
  bytes.takeWhile (fun b => b != 0)

/-- Bytes shown as text in a log line. -/
def bytesText (bytes : List Byte) : String :=
  String.mk (bytes.map (fun b => Char.ofNat b.toNat))

/-- `LoadFile(fileName)`; `fileName = none` is the null pointer.
`extractScriptInHTML` is the markup extractor; it is given the C string of
`String::Utf8Value(source)` and its result goes through `NanNew`, which
decodes it.  Executing the empty handle is undefined: `crash`.  A
script-visible error is an `Event.throwException` in the trace. -/
def LoadFile {σ : Type} (E : Engine σ) (fs : FileSystem)
    (extractScriptInHTML : List Byte → List Byte)
    (w : World σ) (fileName : Option String) (fuel : Nat) : Option (Run σ Unit) :=
  match fileName with
  | none => some (.ok (w.emit [.throwException "Error loading file"]) ())
  | some fileName =>
    match ReadFile E fs fileName w fuel with
    | none => none
    | some (.crash w1) => some (.crash w1)
    | some (.ok w1 none) => some (.ok (w1.emit [.throwException "Error loading file"]) ())
    | some (.ok w1 (some source)) =>
      let html := endsWithNoCase fileName ".html" || endsWithNoCase fileName ".htm"
      let str := cString (extractScriptInHTML (cString (E.writeUtf8 source)))
      let source2 : Handle V8String := if html then NewFromUtf8 E str else some source
      let w2 :=
        if html then
          w1.emit [.logI ("load html file " ++ fileName ++ ":\n" ++ bytesText str ++ "\n")]
        else w1
      match source2 with
      | none => some (.crash w2)
      | some source3 =>
        let r := ExecuteString E w2 source3 fileName true true
        if !r.2 then some (.ok (r.1.emit [.throwException "Error executing file"]) ())
        else some (.ok r.1 ())

/-- `Load(args)`, the script-facing `require`: `LoadFile` on each argument in order. -/
def Load {σ : Type} (E : Engine σ) (fs : FileSystem)
    (extractScriptInHTML : List Byte → List Byte) :
    World σ → List Val → Nat → Option (Run σ Unit)
  | w, [], _ => some (.ok w ())
  | w, arg :: rest, fuel =>
    match LoadFile E fs extractScriptInHTML w (E.utf8Value w.engine arg) fuel with
    | none => none
    | some (.crash w1) => some (.crash w1)
    | some (.ok w1 _) => Load E fs extractScriptInHTML w1 rest fuel

/-! ## Startup -/

/-- The built-in source `loadStartup` substitutes for an empty startup script. -/
def fallbackSource : V8String :=
  NanNew "function tick(t, dt) \x7b\n print(\"dummy tick.\");\n\x7d"

/-- `loadStartup(isolate)`.  `toSysAbsPath` is `Config::toSysAbsPath`.
`source->Length()` on the empty handle is undefined: `crash`. -/
def loadStartup {σ : Type} (E : Engine σ) (fs : FileSystem) (toSysAbsPath : String → String)
    (w : World σ) (fuel : Nat) : Option (Run σ Int) :=
  let fileName := toSysAbsPath "scripts/startup.js"
  match ReadFile E fs fileName w fuel with
  | none => none
  | some (.crash w1) => some (.crash w1)
  | some (.ok w1 none) => some (.crash w1)
  | some (.ok w1 (some source)) =>
    let source2 := if source.length < 1 then fallbackSource else source
    let r := ExecuteString E w1 source2 fileName false true
    some (.ok r.1 (if r.2 then 0 else 1))

/-- `V8Wrapper::init`, from the installation of the native bindings on (lines
283–302); `s0` is the engine state of the created context.  The native and
canvas bindings are outside the file: their installation is recorded in the
trace and leaves the engine state as it is. -/
def init {σ : Type} (E : Engine σ) (fs : FileSystem) (toSysAbsPath : String → String)
    (s0 : σ) (fuel : Nat) : Option (Run σ Unit) :=
  let w0 := (World.start s0).emit [.nativeInitBinding, .canvasInit]
  match loadStartup E fs toSysAbsPath w0 fuel with
  | none => none
  | some (.crash w1) => some (.crash w1)
  | some (.ok w1 _) =>
    match E.globalGet w1.engine "tick" with
    | .function tickFn =>
      let w2 : World σ := { w1 with sTickFunc := some tickFn }
      match E.globalGet w2.engine "dispatchEvent" with
      | .function dispatchFn =>
        let w3 : World σ := { w2 with sDispatchEventFunc := some dispatchFn }
        some (.ok (w3.emit [.logI "V8Wrapper::init done\n"]) ())
      | _ =>
        some (.ok
          (w2.emit [.logI "Error: Script does not declare 'dispatchEvent' global function.\n"]) ())
    | _ =>
      some (.ok (w1.emit [.logI "Error: Script does not declare 'tick' global function.\n"]) ())

/-! ## Frame tick and event dispatch -/

/-- `V8Wrapper::tick(t, dt)`. -/
def tick {σ : Type} (E : Engine σ) (w : World σ) (t dt : Float) : Run σ Unit :=
  let _argv := [Val.number t, Val.number dt]
  let w1 := w.emit [.beginPaint]
  match w1.sTickFunc with
  | none => .crash w1
  | some f =>
    let r := E.call w1.engine f _argv
    let w2 : World σ := { w1 with engine := r.1, trace := w1.trace ++ [.call f _argv, .endPaint] }
    match r.2 with
    | some try_catch => .ok (w2.emit (ReportException try_catch)) ()
    | none => .ok w2 ()

/-- A run of calls `tick(t, dt)`, one per element of the list, stopping at a crash. -/
def tickAll {σ : Type} (E : Engine σ) : World σ → List (Float × Float) → Run σ Unit
  | w, [] => .ok w ()
  | w, (t, dt) :: rest =>
    match tick E w t dt with
    | .ok w1 _ => tickAll E w1 rest
    | .crash w1 => .crash w1

/-- `V8Wrapper::dispatchEvent(event)`; an exception of the script is not caught here. -/
def dispatchEvent {σ : Type} (E : Engine σ) (w : World σ) (event : Val) : Run σ Unit :=
  let _argv := [event]
  match w.sDispatchEventFunc with
  | none => .crash w
  | some f =>
    let r := E.call w.engine f _argv
    .ok { w with engine := r.1, trace := w.trace ++ [.call f _argv] } ()

/-- The value object `Touch(x, y)`. -/
structure Touch where
  x : Int
  y : Int

/-- The object built for one touch in the loop of `dispatchTouchEvent`. -/
def touchObject (touch : Touch) : Val :=
  ((((Val.object []).Set "identifier" (.integer 0)).Set "x" (.integer touch.x)).Set "pageX"
    (.integer touch.x)).Set "y" (.integer touch.y) |>.Set "pageY" (.integer touch.y)

/-- The record `dispatchTouchEvent` builds.  `n` is `int n = touchs.size()`;
the loop fills `targetTouches[i]` for `0 ≤ i < n`. -/
def touchEventObject (action button : Int) (touchs : List Touch) : Val :=
  let n := toInt32 touchs.length
  let targetTouches := Val.array ((touchs.take n.toNat).map touchObject)
  let obj := (Val.object []).Set "targetTouches" targetTouches
  let obj :=
    if action = 1 then obj.Set "name" (.string "touchstart")
    else if action = 0 then obj.Set "name" (.string "touchend")
    else if action = 3 then obj.Set "name" (.string "touchmove")
    else obj
  let obj := obj.Set "action" (.number (Float.ofInt action))
  obj.Set "button" (.number (Float.ofInt button))

/-- `V8Wrapper::dispatchTouchEvent(action, button, touchs)`. -/
def dispatchTouchEvent {σ : Type} (E : Engine σ) (w : World σ) (action button : Int)
    (touchs : List Touch) : Run σ Unit :=
  dispatchEvent E w (touchEventObject action button touchs)

/-- `V8Wrapper::dispatchPointerEvent(action, button, x, y)`. -/
def dispatchPointerEvent {σ : Type} (E : Engine σ) (w : World σ) (action button x y : Int) :
    Run σ Unit :=
  let touchs : List Touch := [] ++ [Touch.mk x y]
  dispatchTouchEvent E w action button touchs

/-- The record `dispatchKeyEvent` builds. -/
def keyEventObject (action code mods scancode : Int) : Val :=
  let obj := Val.object []
  let obj :=
    if action = 1 then obj.Set "name" (.string "keydown")
    else if action = 0 then obj.Set "name" (.string "keyup")
    else if action = 2 then obj.Set "name" (.string "keyrepeat")
    else obj.Set "name" (.string "key")
  let obj := obj.Set "action" (.number (Float.ofInt action))
  let obj := obj.Set "code" (.number (Float.ofInt code))
  let obj := obj.Set "mods" (.number (Float.ofInt mods))
  obj.Set "scancode" (.number (Float.ofInt scancode))

/-- `V8Wrapper::dispatchKeyEvent(action, code, mods, scancode)`. -/
def dispatchKeyEvent {σ : Type} (E : Engine σ) (w : World σ) (action code mods scancode : Int) :
    Run σ Unit :=
  dispatchEvent E w (keyEventObject action code mods scancode)

/-! ## Observations on traces -/

/-- Recognises a call of `CanvasRenderingContext2d::beginPaint`. -/
def Event.isBeginPaint : Event → Bool
  | .beginPaint => true
  | _ => false

/-- Recognises a call of `CanvasRenderingContext2d::endPaint`. -/
def Event.isEndPaint : Event → Bool
  | .endPaint => true
  | _ => false

/-- Number of `beginPaint` calls in a trace. -/
def beginPaintCount (trace : List Event) : Nat :=
  trace.countP Event.isBeginPaint

/-- Number of `endPaint` calls in a trace. -/
def endPaintCount (trace : List Event) : Nat :=
  trace.countP Event.isEndPaint

/-- Messages of the script-visible errors raised (`isolate->ThrowException`). -/
def thrown : List Event → List String
  | [] => []
  | .throwException msg :: rest => msg :: thrown rest
  | _ :: rest => thrown rest

/-- Sources handed to the engine for execution, in order. -/
def executedSources : List Event → List V8String
  | [] => []
  | .execute source _ :: rest => source :: executedSources rest
  | _ :: rest => executedSources rest

/-- Functions of the script invoked through `NanCallback::Call`, in order. -/
def scriptCalls : List Event → List FunRef
  | [] => []
  | .call f _ :: rest => f :: scriptCalls rest
  | _ :: rest => scriptCalls rest

/-- The words of the specification for `print`: the coerced arguments joined
by one space. -/
def joinWithSpace : List String → String
  | [] => ""
  | [s] => s
  | s :: t :: rest => s ++ " " ++ joinWithSpace (t :: rest)

/-! ## The script engine on the fragment of the fallback script

The built-in fallback source is a function declaration whose body is one call
statement.  For the claim about it the engine is modelled on that fragment of
the script language; whatever lies outside the fragment is left to an
arbitrary engine `base`. -/

/-- An engine whose state is its list of globals.  Executing the fallback
source binds `tick` to function `0`; any other source binds nothing; every
source evaluates to `undefined`.  A call of function `1` raises, every other
call returns.  `String::kMaxLength` is `(1 << 28) - 16`. -/
def demoEngine : Engine (List (String × Val)) where
  execute globals source _ :=
    if source = fallbackSource then (setProp globals "tick" (.function (FunRef.mk 0)), .value true none)
    else (globals, .value true none)
  globalGet globals key := (getProp globals key).getD .undefined
  call globals f _ :=
    if f.id = 1 then (globals, some (TryCatch.mk (some "Error: boom") none none))
    else (globals, none)
  utf8Value _ v :=
    match v with
    | .string s => some s
    | _ => none
  writeUtf8 text := text.map (fun u => u.toNat.toUInt8)
  kMaxLength := 268435440

/-- A file system without any file: every `fopen` fails with `ENOENT`. -/
def noFiles : FileSystem :=
  fun _ => .error 2

/-- A file system whose every path holds the 10-byte script `var x = 1;`. -/
def plainScriptFs : FileSystem :=
  fun _ => .ok (FileData.mk (cstr "var x = 1;") (fun _ => 4096))

/-- A one-byte file on which every `fread` returns 0 (a read error, or the
file was emptied after its length was measured). -/
def stuckFile : FileData :=
  FileData.mk (cstr "x") (fun _ => 0)

/-- A file system whose every path opens `stuckFile`. -/
def stuckFs : FileSystem :=
  fun _ => .ok stuckFile

/-- A readable file of 2^32 zero bytes. -/
def bigFile : FileData :=
  FileData.mk (List.replicate 4294967296 0) (fun _ => 4294967296)

/-- A file system whose every path opens `bigFile`. -/
def bigFs : FileSystem :=
  fun _ => .ok bigFile

/-- A readable two-byte file holding the UTF-8 encoding `c3 a9` of U+00E9. -/
def accentFile : FileData :=
  FileData.mk [195, 169] (fun _ => 4096)

/-- A file system whose every path opens `accentFile`. -/
def accentFs : FileSystem :=
  fun _ => .ok accentFile

/-- A readable file of 600000000 zero bytes. -/
def hugeFile : FileData :=
  FileData.mk (List.replicate 600000000 0) (fun _ => 600000000)

/-- A file system whose every path opens `hugeFile`. -/
def hugeFs : FileSystem :=
  fun _ => .ok hugeFile

/-- A file system whose every path holds an empty file. -/
def emptyFileFs : FileSystem :=
  fun _ => .ok (FileData.mk [] (fun _ => 4096))

/-- A host state whose tick entry point is function `1` of `demoEngine`, the
function that raises. -/
def raisingWorld : World (List (String × Val)) :=
  { engine := [], trace := [], sTickFunc := some (FunRef.mk 1), sDispatchEventFunc := none }

/-! ## Properties of the read path -/

theorem toInt32_of_lt {n : Nat} (h : n < 2147483648) : toInt32 n = n := by
  unfold toInt32
  omega

theorem readLoop_spec (f : FileData) (hr : f.readable) (size : Nat)
    (hsize : size ≤ f.content.length) :
    ∀ (fuel k i : Nat) (chars : List Byte), i ≤ size → size - i ≤ fuel →
      chars = f.content.take i →
      readLoop f size fuel k i chars = some (f.content.take size) := by
  intro fuel
  induction fuel with
  | zero =>
    intro k i chars hi hfuel hchars
    have : i = size := by omega
    subst this
    unfold readLoop
    simp [hchars]
  | succ fuel ih =>
    intro k i chars hi hfuel hchars
    unfold readLoop
    by_cases hlt : i < size
    · simp only [hlt, if_true]
      have hk := hr k
      have hread : 1 ≤ fread f k i (size - i) := by
        unfold fread
        omega
      have hread2 : fread f k i (size - i) ≤ size - i := by
        unfold fread
        omega
      apply ih
      · omega
      · omega
      · rw [hchars]
        rw [List.take_add]
    · have : i = size := by omega
      subst this
      simp [hchars]

theorem readLoop_result (f : FileData) (size : Nat) :
    ∀ (fuel k i : Nat) (chars r : List Byte), i ≤ size →
      chars = f.content.take i →
      readLoop f size fuel k i chars = some r → r = f.content.take size := by
  intro fuel
  induction fuel with
  | zero =>
    intro k i chars r hi hchars hrun
    unfold readLoop at hrun
    by_cases hlt : i < size
    · simp [hlt] at hrun
    · have : i = size := by omega
      subst this
      simp only [hlt, if_false, Option.some.injEq] at hrun
      rw [← hrun, hchars]
  | succ fuel ih =>
    intro k i chars r hi hchars hrun
    unfold readLoop at hrun
    by_cases hlt : i < size
    · simp only [hlt, if_true] at hrun
      have hread2 : fread f k i (size - i) ≤ size - i := by
        unfold fread
        omega
      refine ih _ _ _ r ?_ ?_ hrun
      · omega
      · rw [hchars]
        rw [List.take_add]
    · have : i = size := by omega
      subst this
      simp only [hlt, if_false, Option.some.injEq] at hrun
      rw [← hrun, hchars]

theorem readLoop_stuck (fuel k : Nat) : readLoop stuckFile 1 fuel k 0 [] = none := by
  induction fuel generalizing k with
  | zero =>
    unfold readLoop
    simp
  | succ fuel ih =>
    unfold readLoop
    have h0 : fread stuckFile k 0 (1 - 0) = 0 := by
      simp [fread, stuckFile]
    simp only [Nat.lt_one_iff, if_true, h0]
    simpa using ih (k + 1)

theorem utf8DecodeLoop_ascii (bytes : List Byte) (h : ∀ b ∈ bytes, b.toNat < 128) :
    ∀ fuel, bytes.length ≤ fuel → utf8DecodeLoop fuel bytes = bytes.map UInt8.toUInt16 := by
  induction bytes with
  | nil =>
    intro fuel _
    cases fuel <;> simp [utf8DecodeLoop]
  | cons b rest ih =>
    intro fuel hfuel
    cases fuel with
    | zero => simp at hfuel
    | succ fuel =>
      have hb : b.toNat < 128 := h b (by simp)
      have hrest : ∀ c ∈ rest, c.toNat < 128 := fun c hc => h c (by simp [hc])
      have hstep : utf8Step b rest = ([b.toUInt16], rest) := by
        simp [utf8Step, hb]
      simp only [utf8DecodeLoop, hstep, List.map_cons, List.singleton_append]
      rw [ih hrest fuel (by simpa using hfuel)]

theorem utf8Decode_ascii (bytes : List Byte) (h : ∀ b ∈ bytes, b.toNat < 128) :
    utf8Decode bytes = bytes.map UInt8.toUInt16 :=
  utf8DecodeLoop_ascii bytes h bytes.length (le_refl _)

theorem ReadFile_returns_decoding {σ : Type} (E : Engine σ) (fs : FileSystem) (name : String)
    (file : FileData) (w : World σ) (fuel : Nat)
    (hopen : fs name = .ok file) (hread : file.readable)
    (hlen : file.content.length < 2147483647) (hfuel : file.content.length ≤ fuel) :
    ReadFile E fs name w fuel = some (.ok w (NewFromUtf8 E file.content)) := by
  have hsize : toInt32 file.content.length = file.content.length :=
    toInt32_of_lt (by omega)
  have hfits : ¬ ((file.content.length : Int) < 0
      ∨ 2147483647 < (file.content.length : Int) + 1) := by
    omega
  have hloop := readLoop_spec file hread file.content.length (le_refl _) fuel 0 0 []
    (Nat.zero_le _) (by omega) (by simp)
  unfold ReadFile
  simp only [hopen, hsize]
  simp [hloop, hfits]

theorem ReadFile_result {σ : Type} (E : Engine σ) (fs : FileSystem) (name : String)
    (file : FileData) (w : World σ) (fuel : Nat) (r : Run σ (Handle V8String))
    (hopen : fs name = .ok file) (hlen : file.content.length < 2147483647)
    (hrun : ReadFile E fs name w fuel = some r) :
    r = .ok w (NewFromUtf8 E file.content) := by
  have hsize : toInt32 file.content.length = file.content.length :=
    toInt32_of_lt (by omega)
  have hfits : ¬ ((file.content.length : Int) < 0
      ∨ 2147483647 < (file.content.length : Int) + 1) := by
    omega
  unfold ReadFile at hrun
  simp only [hopen, hsize, hfits, if_false, Int.toNat_ofNat] at hrun
  cases hloop : readLoop file file.content.length fuel 0 0 [] with
  | none => simp [hloop] at hrun
  | some chars =>
    have hchars := readLoop_result file file.content.length fuel 0 0 [] chars
      (Nat.zero_le _) (by simp) hloop
    simp only [hloop, Option.some.injEq] at hrun
    rw [← hrun, hchars]
    simp

/-- C7 (as amended): for every sequence of N ASCII bytes (each below 0x80),
N < 2^31 - 1 and N ≤ `String::kMaxLength`, N = 0 included, stored in a readable
file, `ReadFile`, given fuel for N loop iterations, returns `String::NewFromUtf8`
of exactly the file's bytes, which is a string of length N whose code units
are, one for one, the file's bytes; it logs nothing. -/
theorem ReadFile_roundtrip {σ : Type} (E : Engine σ) (fs : FileSystem) (name : String)
    (file : FileData) (w : World σ) (fuel : Nat)
    (hopen : fs name = .ok file) (hread : file.readable)
    (hascii : ∀ b ∈ file.content, b.toNat < 128)
    (hlen : file.content.length < 2147483647)
    (hmax : file.content.length ≤ E.kMaxLength)
    (hfuel : file.content.length ≤ fuel) :
    ReadFile E fs name w fuel = some (.ok w (NewFromUtf8 E file.content)) ∧
      ReadFile E fs name w fuel = some (.ok w (some (file.content.map UInt8.toUInt16))) ∧
      (file.content.map UInt8.toUInt16).length = file.content.length ∧
      (file.content.map UInt8.toUInt16).map UInt16.toNat = file.content.map UInt8.toNat := by
  have hmain := ReadFile_returns_decoding E fs name file w fuel hopen hread hlen hfuel
  have hdec : NewFromUtf8 E file.content = some (file.content.map UInt8.toUInt16) := by
    unfold NewFromUtf8
    rw [utf8Decode_ascii file.content hascii, List.length_map]
    exact if_neg (by omega)
  refine ⟨hmain, ?_, by simp, ?_⟩
  · rw [hmain, hdec]
  · rw [List.map_map]
    apply List.map_congr_left
    intro b _
    show (b.toUInt16).toNat = b.toNat
    simp [UInt8.toUInt16, Nat.toUInt16, UInt16.toNat, UInt16.ofNat]

/-- Witness of `ReadFile_roundtrip`: the 10-byte script file. -/
theorem ReadFile_roundtrip_witness :
    ReadFile demoEngine plainScriptFs "a.js" (World.start []) 10
        = some (.ok (World.start []) (NewFromUtf8 demoEngine (cstr "var x = 1;"))) ∧
      ReadFile demoEngine plainScriptFs "a.js" (World.start []) 10
        = some (.ok (World.start []) (some ((cstr "var x = 1;").map UInt8.toUInt16))) ∧
      ((cstr "var x = 1;").map UInt8.toUInt16).length = (cstr "var x = 1;").length ∧
      ((cstr "var x = 1;").map UInt8.toUInt16).map UInt16.toNat
        = (cstr "var x = 1;").map UInt8.toNat :=
  ReadFile_roundtrip demoEngine plainScriptFs "a.js"
    (FileData.mk (cstr "var x = 1;") (fun _ => 4096))
    (World.start []) 10 rfl (fun _ => Nat.le_of_ble_eq_true rfl) (by decide) (by decide)
    (by decide) (by decide)

/-- C7 (counterexample): three readable files whose round trip fails.  A file
of 2^32 bytes is measured as `int size = 0` and comes back as the empty string,
whatever the fuel.  The two bytes `c3 a9` come back as a string of length 1.
A file of 600000000 zero bytes, above `String::kMaxLength`, comes back as the
empty handle. -/
theorem ReadFile_roundtrip_fails :
    (bigFile.readable ∧ bigFile.content.length = 4294967296 ∧
      ReadFile demoEngine bigFs "big.bin" (World.start []) 0
        = some (.ok (World.start []) (some [])) ∧
      ¬ ∃ fuel text, text.length = bigFile.content.length ∧
        ReadFile demoEngine bigFs "big.bin" (World.start []) fuel
          = some (.ok (World.start []) (some text))) ∧
    (accentFile.readable ∧ accentFile.content.length = 2 ∧
      ReadFile demoEngine accentFs "accent.js" (World.start []) 2
        = some (.ok (World.start []) (some [233])) ∧
      ¬ ∃ fuel text, text.length = accentFile.content.length ∧
        ReadFile demoEngine accentFs "accent.js" (World.start []) fuel
          = some (.ok (World.start []) (some text))) ∧
    (hugeFile.readable ∧ hugeFile.content.length = 600000000 ∧
      ReadFile demoEngine hugeFs "huge.js" (World.start []) 600000000
        = some (.ok (World.start []) none) ∧
      ¬ ∃ fuel text,
        ReadFile demoEngine hugeFs "huge.js" (World.start []) fuel
          = some (.ok (World.start []) (some text))) := by
  refine ⟨?_, ?_, ?_⟩
  · have hlen : bigFile.content.length = 4294967296 := List.length_replicate _ _
    have hsize : toInt32 (bigFile.content.length : Nat) = 0 := by
      rw [hlen]
      unfold toInt32
      omega
    have hrun : ∀ fuel, ReadFile demoEngine bigFs "big.bin" (World.start []) fuel
        = some (.ok (World.start []) (some [])) := by
      intro fuel
      unfold ReadFile
      simp only [bigFs, hsize]
      unfold readLoop
      simp [NewFromUtf8, utf8Decode, utf8DecodeLoop]
    refine ⟨?_, hlen, hrun 0, ?_⟩
    · intro k
      show 1 ≤ 4294967296
      omega
    · rintro ⟨fuel, text, htext, h⟩
      rw [hrun fuel] at h
      simp only [Option.some.injEq, Run.ok.injEq, true_and] at h
      rw [← h, hlen] at htext
      simp at htext
  · have hdec : NewFromUtf8 demoEngine accentFile.content = some [233] := by
      decide
    have hlen : accentFile.content.length < 2147483647 := by
      decide
    refine ⟨fun _ => Nat.le_of_ble_eq_true rfl, rfl, ?_, ?_⟩
    · rw [← hdec]
      exact ReadFile_returns_decoding demoEngine accentFs "accent.js" accentFile
        (World.start []) 2 rfl (fun _ => Nat.le_of_ble_eq_true rfl) hlen (by decide)
    · rintro ⟨fuel, text, htext, h⟩
      have hres := ReadFile_result demoEngine accentFs "accent.js" accentFile
        (World.start []) fuel _ rfl hlen h
      rw [hdec] at hres
      simp only [Run.ok.injEq, true_and, Option.some.injEq] at hres
      rw [hres] at htext
      simp [accentFile] at htext
  · have hlen : hugeFile.content.length = 600000000 := List.length_replicate _ _
    have hlen2 : hugeFile.content.length < 2147483647 := by
      rw [hlen]
      omega
    have hascii : ∀ b ∈ hugeFile.content, b.toNat < 128 := by
      intro b hb
      have hb0 : b = 0 := List.eq_of_mem_replicate hb
      rw [hb0]
      decide
    have hdec : NewFromUtf8 demoEngine hugeFile.content = none := by
      unfold NewFromUtf8
      rw [utf8Decode_ascii hugeFile.content hascii, List.length_map, hlen]
      exact if_pos (by decide)
    have hreadable : hugeFile.readable := by
      intro k
      show 1 ≤ 600000000
      omega
    refine ⟨hreadable, hlen, ?_, ?_⟩
    · rw [← hdec]
      exact ReadFile_returns_decoding demoEngine hugeFs "huge.js" hugeFile
        (World.start []) 600000000 rfl hreadable hlen2 (by rw [hlen])
    · rintro ⟨fuel, text, h⟩
      have hres := ReadFile_result demoEngine hugeFs "huge.js" hugeFile
        (World.start []) fuel _ rfl hlen2 h
      rw [hdec] at hres
      simp at hres

/-- C10 (the code at the failing input): on a file of measured length 1 whose
every `fread` returns 0, the read loop never ends: `ReadFile` does not return,
whatever the fuel. -/
theorem ReadFile_zero_read_never_returns {σ : Type} (E : Engine σ) (w : World σ) (fuel : Nat) :
    ReadFile E stuckFs "stuck.js" w fuel = none := by
  have hlen : stuckFile.content.length = 1 := by
    decide
  have hsize : toInt32 (stuckFile.content.length : Nat) = 1 := by
    rw [hlen]
    unfold toInt32
    omega
  unfold ReadFile
  simp only [stuckFs, hsize]
  simp [readLoop_stuck]

/-! ## Event marshalling -/

/-- C4: for every button and touch list, `dispatchTouchEvent` hands to
`dispatchEvent` the record `touchEventObject action button touchs`, whose
`name` is "touchend" for action 0, "touchstart" for action 1, "touchmove" for
action 3, and which has no `name` field for action 2. -/
theorem dispatchTouchEvent_name {σ : Type} (E : Engine σ) (w : World σ) (button : Int)
    (touchs : List Touch) :
    (∀ action, dispatchTouchEvent E w action button touchs
        = dispatchEvent E w (touchEventObject action button touchs)) ∧
      (touchEventObject 0 button touchs).field "name" = some (.string "touchend") ∧
      (touchEventObject 1 button touchs).field "name" = some (.string "touchstart") ∧
      (touchEventObject 3 button touchs).field "name" = some (.string "touchmove") ∧
      (touchEventObject 2 button touchs).field "name" = none := by
  refine ⟨fun _ => rfl, ?_, ?_, ?_, ?_⟩ <;>
    simp [touchEventObject, Val.Set, Val.field, setProp, getProp]

/-- C5: for every code, mods and scancode, `dispatchKeyEvent` hands to
`dispatchEvent` the record `keyEventObject action code mods scancode`, whose
`name` is "keyup" for action 0, "keydown" for action 1, "keyrepeat" for
action 2 and "key" for every other action; the field is always present. -/
theorem dispatchKeyEvent_name {σ : Type} (E : Engine σ) (w : World σ)
    (action code mods scancode : Int) :
    dispatchKeyEvent E w action code mods scancode
        = dispatchEvent E w (keyEventObject action code mods scancode) ∧
      (keyEventObject 0 code mods scancode).field "name" = some (.string "keyup") ∧
      (keyEventObject 1 code mods scancode).field "name" = some (.string "keydown") ∧
      (keyEventObject 2 code mods scancode).field "name" = some (.string "keyrepeat") ∧
      (keyEventObject action code mods scancode).field "name"
        = some (.string (if action = 0 then "keyup" else if action = 1 then "keydown"
            else if action = 2 then "keyrepeat" else "key")) ∧
      ((keyEventObject action code mods scancode).field "name").isSome = true := by
  have hgen : (keyEventObject action code mods scancode).field "name"
      = some (.string (if action = 0 then "keyup" else if action = 1 then "keydown"
          else if action = 2 then "keyrepeat" else "key")) := by
    unfold keyEventObject
    by_cases h1 : action = 1
    · subst h1
      simp [Val.Set, Val.field, setProp, getProp]
    · by_cases h0 : action = 0
      · subst h0
        simp [Val.Set, Val.field, setProp, getProp]
      · by_cases h2 : action = 2
        · subst h2
          simp [Val.Set, Val.field, setProp, getProp]
        · simp [h0, h1, h2, Val.Set, Val.field, setProp, getProp]
  refine ⟨rfl, ?_, ?_, ?_, hgen, ?_⟩
  · simp [keyEventObject, Val.Set, Val.field, setProp, getProp]
  · simp [keyEventObject, Val.Set, Val.field, setProp, getProp]
  · simp [keyEventObject, Val.Set, Val.field, setProp, getProp]
  · rw [hgen]
    rfl

/-- C6: for all integers action, button, x and y, `dispatchPointerEvent`
dispatches exactly the record `dispatchTouchEvent` builds for the one-element
list `[Touch(x, y)]`, and the `targetTouches` of that record is a sequence of
exactly one element, with identifier = 0, x = pageX = x and y = pageY = y. -/
theorem dispatchPointerEvent_single_touch {σ : Type} (E : Engine σ) (w : World σ)
    (action button x y : Int) :
    dispatchPointerEvent E w action button x y
        = dispatchTouchEvent E w action button [Touch.mk x y] ∧
      dispatchPointerEvent E w action button x y
        = dispatchEvent E w (touchEventObject action button [Touch.mk x y]) ∧
      (touchEventObject action button [Touch.mk x y]).field "targetTouches"
        = some (.array [.object [("identifier", .integer 0), ("x", .integer x),
            ("pageX", .integer x), ("y", .integer y), ("pageY", .integer y)]]) := by
  refine ⟨rfl, rfl, ?_⟩
  have hn : toInt32 (([Touch.mk x y] : List Touch).length : Nat) = 1 := by
    unfold toInt32
    simp
  unfold touchEventObject
  rw [hn]
  by_cases h1 : action = 1
  · simp [h1, touchObject, Val.Set, Val.field, setProp, getProp]
  · by_cases h0 : action = 0
    · simp [h0, touchObject, Val.Set, Val.field, setProp, getProp]
    · by_cases h3 : action = 3
      · simp [h3, touchObject, Val.Set, Val.field, setProp, getProp]
      · simp [h0, h1, h3, touchObject, Val.Set, Val.field, setProp, getProp]

/-! ## `print` -/

theorem consoleText_append (a b : List Event) :
    consoleText (a ++ b) = consoleText a ++ consoleText b := by
  induction a with
  | nil => simp [consoleText]
  | cons e rest ih =>
    cases e <;> simp [consoleText, ih, String.append_assoc]

theorem consoleText_PrintArgs_cons (utf8 : Val → Utf8Value) (rest : List Val) :
    ∀ (a : Val) (first : Bool),
      consoleText (PrintArgs utf8 (a :: rest) first)
        = (if first then "" else " ")
          ++ joinWithSpace ((a :: rest).map (fun a => ToCString (utf8 a))) := by
  induction rest with
  | nil =>
    intro a first
    cases first <;> simp [PrintArgs, consoleText, joinWithSpace]
  | cons b rest2 ih =>
    intro a first
    have hb := ih b false
    simp only [Bool.false_eq_true, if_false, List.map_cons] at hb
    have hunf : PrintArgs utf8 (a :: b :: rest2) first
        = (if first then [] else [Event.console " "])
          ++ [Event.console (ToCString (utf8 a))] ++ PrintArgs utf8 (b :: rest2) false := rfl
    rw [hunf, consoleText_append, consoleText_append, hb]
    cases first <;> simp [consoleText, joinWithSpace, String.append_assoc]

theorem consoleText_PrintArgs (utf8 : Val → Utf8Value) (args : List Val) :
    consoleText (PrintArgs utf8 args true)
        = joinWithSpace (args.map (fun a => ToCString (utf8 a))) := by
  cases args with
  | nil => simp [PrintArgs, consoleText, joinWithSpace]
  | cons a rest =>
    rw [consoleText_PrintArgs_cons]
    simp

/-- C9: for every argument list, `print` appends to the console sink the
string coercions of its arguments in order, joined by one space, followed by
one newline; `print("a","b")` writes "a b\n" and `print()` writes "\n". -/
theorem Print_output {σ : Type} (E : Engine σ) (w : World σ) (args : List Val) :
    consoleText (Print E w args).trace
        = consoleText w.trace
          ++ joinWithSpace (args.map (fun a => ToCString (E.utf8Value w.engine a))) ++ "\n" ∧
      consoleText (Print demoEngine (World.start []) [.string "a", .string "b"]).trace
        = "a b\n" ∧
      consoleText (Print demoEngine (World.start []) []).trace = "\n" := by
  refine ⟨?_, ?_, ?_⟩
  · simp only [Print, World.emit, consoleText_append, consoleText_PrintArgs]
    simp [consoleText]
  · decide
  · decide

/-! ## Frame tick -/

theorem beginPaintCount_ReportException (tc : TryCatch) :
    beginPaintCount (ReportException tc) = 0 := by
  unfold beginPaintCount ReportException
  cases tc.message with
  | none => simp [Event.isBeginPaint]
  | some m =>
    cases tc.stackTrace with
    | none => simp [List.countP_replicate, Event.isBeginPaint]
    | some st =>
      by_cases h : st.length > 0 <;>
        simp [List.countP_replicate, Event.isBeginPaint, h]

theorem endPaintCount_ReportException (tc : TryCatch) :
    endPaintCount (ReportException tc) = 0 := by
  unfold endPaintCount ReportException
  cases tc.message with
  | none => simp [Event.isEndPaint]
  | some m =>
    cases tc.stackTrace with
    | none => simp [List.countP_replicate, Event.isEndPaint]
    | some st =>
      by_cases h : st.length > 0 <;>
        simp [List.countP_replicate, Event.isEndPaint, h]

theorem tick_resolved {σ : Type} (E : Engine σ) (w : World σ) (f : FunRef)
    (h : w.sTickFunc = some f) (t dt : Float) :
    ∃ w1, tick E w t dt = .ok w1 () ∧ w1.sTickFunc = some f ∧
      w1.trace = w.trace ++ [.beginPaint, .call f [.number t, .number dt], .endPaint]
        ++ (match (E.call w.engine f [.number t, .number dt]).2 with
            | some try_catch => ReportException try_catch
            | none => []) ∧
      beginPaintCount w1.trace = beginPaintCount w.trace + 1 ∧
      endPaintCount w1.trace = endPaintCount w.trace + 1 := by
  unfold tick
  simp only [World.emit, h]
  cases hc : (E.call w.engine f [.number t, .number dt]).2 with
  | none =>
    refine ⟨_, rfl, rfl, ?_, ?_, ?_⟩
    · simp
    · simp [beginPaintCount, Event.isBeginPaint]
    · simp [endPaintCount, Event.isEndPaint]
  | some tc =>
    refine ⟨_, rfl, rfl, ?_, ?_, ?_⟩
    · simp
    · have hb := beginPaintCount_ReportException tc
      unfold beginPaintCount at hb ⊢
      simp [Event.isBeginPaint, hb]
    · have he := endPaintCount_ReportException tc
      unfold endPaintCount at he ⊢
      simp [Event.isEndPaint, he]

/-- C1: with a resolved tick entry point, every call `tick(t, dt)` returns and
adds to the trace exactly `beginPaint`, the script call, `endPaint`, in that
order, followed only by the exception report when the script call raised; so
after N calls the `beginPaint` and `endPaint` counts have both grown by N,
whichever of the calls raised. -/
theorem tick_closes_paint_scope {σ : Type} (E : Engine σ) (w : World σ) (f : FunRef)
    (h : w.sTickFunc = some f) :
    (∀ t dt, ∃ w1, tick E w t dt = .ok w1 () ∧ w1.sTickFunc = some f ∧
      w1.trace = w.trace ++ [.beginPaint, .call f [.number t, .number dt], .endPaint]
        ++ (match (E.call w.engine f [.number t, .number dt]).2 with
            | some try_catch => ReportException try_catch
            | none => []) ∧
      beginPaintCount w1.trace = beginPaintCount w.trace + 1 ∧
      endPaintCount w1.trace = endPaintCount w.trace + 1) ∧
    (∀ ticks : List (Float × Float), ∃ wN, tickAll E w ticks = .ok wN () ∧
      beginPaintCount wN.trace = beginPaintCount w.trace + ticks.length ∧
      endPaintCount wN.trace = endPaintCount w.trace + ticks.length) := by
  refine ⟨fun t dt => tick_resolved E w f h t dt, ?_⟩
  intro ticks
  induction ticks generalizing w with
  | nil => exact ⟨w, rfl, by simp, by simp⟩
  | cons p rest ih =>
    obtain ⟨t, dt⟩ := p
    obtain ⟨w1, hrun, hf, _, hb, he⟩ := tick_resolved E w f h t dt
    obtain ⟨wN, hall, hbN, heN⟩ := ih w1 hf
    refine ⟨wN, ?_, ?_, ?_⟩
    · simp only [tickAll, hrun, hall]
    · rw [hbN, hb, List.length_cons]
      omega
    · rw [heN, he, List.length_cons]
      omega

/-- Witness of `tick_closes_paint_scope`: two ticks on a host whose tick
function raises at every call. -/
theorem tick_closes_paint_scope_witness :
    raisingWorld.sTickFunc = some (FunRef.mk 1) ∧
      ∃ wN, tickAll demoEngine raisingWorld [(0, 0), (16, 16)] = .ok wN () ∧
        beginPaintCount wN.trace
          = beginPaintCount raisingWorld.trace + [((0 : Float), (0 : Float)), (16, 16)].length ∧
        endPaintCount wN.trace
          = endPaintCount raisingWorld.trace + [((0 : Float), (0 : Float)), (16, 16)].length :=
  ⟨rfl, (tick_closes_paint_scope demoEngine raisingWorld (FunRef.mk 1) rfl).2 [(0, 0), (16, 16)]⟩

/-! ## Startup and entry-point resolution -/

/-- C2 (the code at the failing input): when the startup script declares no
`tick`, `init` logs the fact and returns with both entry points unresolved; a
following `tick(0, 0)` calls `beginPaint` and then calls through the null
`sTickFunc`, and `dispatchEvent` and `dispatchKeyEvent` call through the null
`sDispatchEventFunc`.  With the fallback script, which declares `tick` only,
`dispatchPointerEvent` still calls through the null `sDispatchEventFunc`. -/
theorem tick_and_dispatch_after_unresolved_init_crash :
    (∃ w, init demoEngine plainScriptFs id [] 10 = some (.ok w ()) ∧
      (demoEngine.globalGet w.engine "tick").IsFunction = false ∧
      w.sTickFunc = none ∧ w.sDispatchEventFunc = none ∧
      w.trace.getLast?
        = some (.logI "Error: Script does not declare 'tick' global function.\n") ∧
      tick demoEngine w 0 0 = .crash (w.emit [.beginPaint]) ∧
      scriptCalls (w.emit [.beginPaint]).trace = [] ∧
      dispatchEvent demoEngine w (.object []) = .crash w ∧
      dispatchKeyEvent demoEngine w 1 65 0 0 = .crash w) ∧
    (∃ w, init demoEngine noFiles id [] 0 = some (.ok w ()) ∧
      (demoEngine.globalGet w.engine "dispatchEvent").IsFunction = false ∧
      w.sTickFunc = some (FunRef.mk 0) ∧ w.sDispatchEventFunc = none ∧
      w.trace.getLast?
        = some (.logI "Error: Script does not declare 'dispatchEvent' global function.\n") ∧
      dispatchPointerEvent demoEngine w 1 0 10 20 = .crash w) :=
  ⟨⟨_, rfl, rfl, rfl, rfl, rfl, rfl, rfl, rfl, rfl⟩, ⟨_, rfl, rfl, rfl, rfl, rfl, rfl⟩⟩

/-! ## `require` on a file that cannot be read -/

/-- C3 (the code at the failing input): for a path that cannot be opened and
for a path holding an empty file, `LoadFile` returns having raised no
script-visible error, and has handed the empty source to the engine. -/
theorem LoadFile_unreadable_raises_nothing :
    (∃ w, LoadFile demoEngine noFiles id (World.start []) (some "missing.js") 0
        = some (.ok w ()) ∧
      thrown w.trace = [] ∧ executedSources w.trace = [[]]) ∧
    (∃ w, LoadFile demoEngine emptyFileFs id (World.start []) (some "empty.js") 0
        = some (.ok w ()) ∧
      thrown w.trace = [] ∧ executedSources w.trace = [[]]) :=
  ⟨⟨_, rfl, rfl, rfl⟩, ⟨_, rfl, rfl, rfl⟩⟩

end V8Wrapper
